import Mathlib

/-!
Verification development for the composition-resolution pipeline of the
tm-types repository (mcp-server/src/food-service.ts).  The TypeScript
functions are shallowly embedded as executable Lean definitions: JS numbers
are modelled as rationals, JS Math.round and Math.floor as floor-based
integer operations, JS strings as Lean strings processed as character
lists, and the regular expressions of the source as explicit leftmost
maximal-munch scanners (the patterns involved never need backtracking
beyond what the scanners implement, as argued in the comments).
Network and model calls are oracle parameters of the orchestrator model.
-/

namespace TMFood

attribute [local semireducible] Rat.add Rat.mul Rat.inv Rat.sub

/-- JS Math.round: round half toward positive infinity. -/
def jsRound (q : ℚ) : ℤ := Int.floor (q + 1/2)

/-- JS Math.floor. -/
def jsFloor (q : ℚ) : ℤ := Int.floor q

/-- JS string or-chaining: the only falsy string is the empty string. -/
def jsStrOr (a b : String) : String := if a = "" then b else a

/-- JS toLowerCase restricted to ASCII plus the accented letters occurring
in the multilingual keyword set of the source (full Unicode folding is out
of scope of the embedding). -/
def jsLowerChar (c : Char) : Char :=
  if c = 'Ö' then 'ö' else if c = 'Ő' then 'ő'
  else if c = 'É' then 'é' else if c = 'Í' then 'í'
  else if c = 'Á' then 'á' else if c = 'Ú' then 'ú'
  else if c = 'Ü' then 'ü' else if c = 'Ó' then 'ó'
  else if c = 'Ű' then 'ű' else if c = 'Č' then 'č'
  else if c = 'Ž' then 'ž' else if c = 'Š' then 'š'
  else if c = 'È' then 'è' else c.toLower

/-- JS String.prototype.toLowerCase (see jsLowerChar). -/
def jsLower (s : String) : String := String.mk (s.toList.map jsLowerChar)

/-- Does the first list occur as a leading segment of the second? -/
def listStartsWith : List Char → List Char → Bool
  | [], _ => true
  | _ :: _, [] => false
  | p :: ps, c :: cs => (p == c) && listStartsWith ps cs

/-- JS String.prototype.includes: substring occurrence. -/
def containsSub (hay pat : List Char) : Bool :=
  (List.range (hay.length + 1)).any fun i => listStartsWith pat (hay.drop i)

/-- JS String.prototype.lastIndexOf for an occurring pattern (0 if absent;
the source only calls it after an includes check succeeded). -/
def lastIndexOfSub (hay pat : List Char) : ℕ :=
  (((List.range (hay.length + 1)).filter fun i =>
      listStartsWith pat (hay.drop i)).getLast?).getD 0

/-- JS \w word characters (ASCII letters, digits, underscore). -/
def isWordChar (c : Char) : Bool := c.isAlphanum || c == '_'

/- ===== QuantityReconciler: normalizeInputQuantitiesToGrams ===== -/

/-- One entry of process.inputInstances: the nested instance carries the
two name fields the reconciler reads plus an arbitrary untouched payload
(the rest of the nested subtree), and a numeric quantity. -/
structure Inst (α : Type) where
  type : String
  name : String
  sub : α
deriving DecidableEq

/-- An inputInstances element: { instance, quantity }. -/
structure InputInst (α : Type) where
  inst : Inst α
  quantity : ℚ
deriving DecidableEq

/-- The name string the water-detection reads:
(i?.instance?.type || i?.instance?.name || '').toLowerCase(). -/
def waterLabel {α : Type} (i : InputInst α) : String :=
  jsLower (jsStrOr i.inst.type i.inst.name)

/-- Water/filler detection by name keyword (water, víz). -/
def isWater {α : Type} (i : InputInst α) : Bool :=
  containsSub (waterLabel i).toList "water".toList ||
  containsSub (waterLabel i).toList "víz".toList

/-- Add a shortfall to the first water-like child, as the find-then-update of the source does. -/
def addToFirstWater {α : Type} : List (InputInst α) → ℚ → List (InputInst α)
  | [], _ => []
  | i :: rest, d =>
    if isWater i then { i with quantity := i.quantity + d } :: rest
    else i :: addToFirstWater rest d

/-- Percentage-vs-absolute detection of the source:
sum > 0 && sum <= 110 && every quantity in [0, 100]. -/
def looksLikePercent (qtys : List ℚ) : Bool :=
  decide (0 < qtys.sum) && decide (qtys.sum ≤ 110) &&
    qtys.all fun q => decide (0 ≤ q) && decide (q ≤ 100)

/-- The per-child percent-to-grams conversion of the loop body:
quantity := Math.round(totalGrams * percent / 100). -/
def convInput {α : Type} (t : ℚ) (i : InputInst α) : InputInst α :=
  { i with quantity := ((jsRound (t * i.quantity / 100) : ℤ) : ℚ) }

/-- The percent branch of normalizeInputQuantitiesToGrams: convert every
child, then add any shortfall to the first water-like child. -/
def percentConvert {α : Type} (t : ℚ) (inputs : List (InputInst α)) : List (InputInst α) :=
  let conv := inputs.map (convInput t)
  let gramsSum := (conv.map (·.quantity)).sum
  if gramsSum < t then addToFirstWater conv (t - gramsSum) else conv

/-- normalizeInputQuantitiesToGrams of food-service.ts.  A falsy total
(null or 0) or an empty list returns the inputs unchanged; otherwise the
percent heuristic decides whether to convert. -/
def normalizeInputQuantitiesToGrams {α : Type}
    (inputs : List (InputInst α)) (totalGrams : Option ℚ) : List (InputInst α) :=
  match totalGrams with
  | none => inputs
  | some t =>
    if t = 0 then inputs
    else if inputs.isEmpty then inputs
    else if looksLikePercent (inputs.map (·.quantity)) then percentConvert t inputs
    else inputs

/-- Modelled from the spec wording of claim C1 only (refinement
comparison): percentage detection without the positive-sum condition. -/
def claimLooksLikePercent (qtys : List ℚ) : Bool :=
  decide (qtys.sum ≤ 110) && qtys.all fun q => decide (0 ≤ q) && decide (q ≤ 100)

/- ===== ProcessTypeClassifier: rankProcessTypes / pickClosestProcessType ===== -/

/-- Is the character in [a-z0-9] (the class kept by the normalizer)? -/
def isLowerAlnum (c : Char) : Bool := (('a' ≤ c) && (c ≤ 'z')) || c.isDigit

/-- Collapse every maximal run of characters satisfying p into a single
copy of sub (the JS replace of a one-or-more class with a single char). -/
def collapseRunsAux (p : Char → Bool) (sub : Char) : Bool → List Char → List Char
  | _, [] => []
  | prev, c :: rest =>
    if p c then
      (if prev then collapseRunsAux p sub true rest
       else sub :: collapseRunsAux p sub true rest)
    else c :: collapseRunsAux p sub false rest

/-- JS s.replace of a whitespace-run regex with a single space. -/
def collapseWs (l : List Char) : List Char :=
  collapseRunsAux Char.isWhitespace ' ' false l

/-- JS String.prototype.trim. -/
def trimWs (l : List Char) : List Char :=
  ((l.dropWhile Char.isWhitespace).reverse.dropWhile Char.isWhitespace).reverse

/-- The local normalize of rankProcessTypes:
s.toLowerCase().replace of non-alphanumeric runs with a space, trimmed. -/
def normalizeLabel (s : String) : String :=
  String.mk (trimWs (collapseRunsAux (fun c => !(isLowerAlnum c)) ' ' false
      (jsLower s).toList))

/-- Deduplicate keeping first occurrences (a JS Set built by insertion).
Fuel is the list length; every step consumes at least one element. -/
def dedupFirstGo : ℕ → List String → List String
  | 0, l => l
  | _ + 1, [] => []
  | n + 1, x :: xs => x :: dedupFirstGo n (xs.filter (· ≠ x))

/-- Deduplicate a token list keeping first occurrences. -/
def dedupFirst (l : List String) : List String := dedupFirstGo l.length l

/-- JS String.prototype.split on a single-character separator (empty
fragments included, as in JS). -/
def splitOnChar (sep : Char) : List Char → List (List Char)
  | [] => [[]]
  | c :: rest =>
    let r := splitOnChar sep rest
    if c = sep then [] :: r
    else
      match r with
      | [] => [[c]]
      | h :: t => (c :: h) :: t

/-- The token set of a label: normalized, split on spaces, empties
dropped, deduplicated as a JS Set built by insertion. -/
def tokenSet (s : String) : List String :=
  dedupFirst (((splitOnChar ' ' (normalizeLabel s).toList).map String.mk).filter (· ≠ ""))

/-- Token-overlap score: |intersection| / (|union| floored at 1). -/
def tokenScore (rawT tT : List String) : ℚ :=
  let inter := (rawT.filter fun x => x ∈ tT).length
  let union := rawT.length + tT.length - inter
  (inter : ℚ) / ((if union = 0 then 1 else union : ℕ) : ℚ)

/-- The fixed additive boosts: a domain regex matched against the
normalized raw label enables a boost for one specific type key. -/
def boostFor (raw : String) (t : String) : ℚ :=
  let has : List String → Bool := fun pats =>
    pats.any fun p => containsSub raw.toList p.toList
  if t = "blending" ∧ has ["blend", "mix", "beverage", "drink", "liquid", "emulsion", "infusion"] then 7/20
  else if t = "milling" ∧ has ["mill", "grind", "powder", "paste"] then 7/20
  else if t = "freezedrying" ∧ has ["dry", "dehydrat", "freeze"] then 7/20
  else if t = "printing" ∧ has ["print"] then 7/20
  else 0

/-- rankProcessTypes of food-service.ts: score every valid type and sort
descending by score.  The ES2019 comparator sort is stable and the
comparator (b.score - a.score) is consistent, so the result is the unique
stable descending order, here realized by insertionSort. -/
def rankProcessTypes (rawType : String) (validTypes : List String) : List (String × ℚ) :=
  let raw := normalizeLabel rawType
  let rawTokens := dedupFirst (((splitOnChar ' ' raw.toList).map String.mk).filter (· ≠ ""))
  let scored := validTypes.map fun t =>
    (t, tokenScore rawTokens (tokenSet t) + boostFor raw t)
  List.insertionSort (fun a b => b.2 ≤ a.2) scored

/-- pickClosestProcessType of food-service.ts (the label argument only
drives logging and is omitted). -/
def pickClosestProcessType (rawType : String) (validTypes : List String) : String :=
  if rawType ∈ validTypes then rawType
  else
    match rankProcessTypes rawType validTypes with
    | [] => jsStrOr (validTypes.headD "") "blending"
    | top :: _ => jsStrOr top.1 (jsStrOr (validTypes.headD "") "blending")

/- ===== IngredientTextExtractor: extractIngredientsFromText ===== -/

/-- Leftmost-match regex scanning: try the matcher at every start
position from the left; JS String.prototype.match returns the first
position at which the whole pattern matches. -/
def scanLeft {β : Type} (f : List Char → Option β) : List Char → Option β
  | [] => f []
  | c :: rest =>
    match f (c :: rest) with
    | some b => some b
    | none => scanLeft f rest

/-- Numeric value of a digit run. -/
def digitsToNat (ds : List Char) : ℕ :=
  ds.foldl (fun a c => 10 * a + (c.toNat - 48)) 0

/-- Maximal-munch parse of the regex number (digits with an optional
[.,]-separated fraction) at the head of the list, returning the parsed
value (comma read as decimal point, matching parseFloat applied after the
comma replacement in the source) and the remaining characters.  The patterns the
source applies after the number can never start with a digit, a dot or a
comma, so greedy parsing needs no backtracking. -/
def parseNumAt (l : List Char) : Option (ℚ × List Char) :=
  let ds := l.takeWhile Char.isDigit
  if ds.isEmpty then none
  else
    let r := l.drop ds.length
    let intPart : ℚ := (digitsToNat ds : ℚ)
    match r with
    | c :: r2 =>
      if c = '.' ∨ c = ',' then
        let fs := r2.takeWhile Char.isDigit
        if fs.isEmpty then some (intPart, r)
        else some (intPart + (digitsToNat fs : ℚ) / (10 : ℚ) ^ fs.length, r2.drop fs.length)
      else some (intPart, r)
    | [] => some (intPart, [])

/-- Replace every <...> tag with a space (JS replace of an angle-bracket
regex, which matches up to the first closing bracket; an unclosed opening
bracket matches nothing).  Fuel is the list length; every recursive call
consumes at least one element. -/
def stripTagsGo : ℕ → List Char → List Char
  | 0, l => l
  | _ + 1, [] => []
  | n + 1, c :: rest =>
    if c = '<' then
      match rest.dropWhile (· ≠ '>') with
      | [] => c :: rest
      | _ :: after => ' ' :: stripTagsGo n after
    else c :: stripTagsGo n rest

/-- Replace every markup tag with a space. -/
def stripTags (l : List Char) : List Char := stripTagsGo l.length l

/-- JS split on the separator class of comma, semicolon and parentheses
(empty fragments included, as in JS). -/
def splitOnSeps : List Char → List (List Char)
  | [] => [[]]
  | c :: rest =>
    let r := splitOnSeps rest
    if c = ',' ∨ c = ';' ∨ c = '(' ∨ c = ')' then [] :: r
    else
      match r with
      | [] => [[c]]
      | h :: t => (c :: h) :: t

/-- Strip a leading run of bullet characters and the whitespace after it
(the anchored bullet regex replace of the source). -/
def stripBullets (l : List Char) : List Char :=
  match l with
  | [] => []
  | c :: _ =>
    if c = '-' ∨ c = '–' ∨ c = '•' then
      (l.dropWhile fun d => d = '-' ∨ d = '–' ∨ d = '•').dropWhile Char.isWhitespace
    else l

/-- Match of the plain percentage pattern (number, optional whitespace,
percent sign) at the head of the list. -/
def percentAt (l : List Char) : Option ℚ :=
  (parseNumAt l).bind fun vr =>
    match vr.2.dropWhile Char.isWhitespace with
    | '%' :: _ => some vr.1
    | _ => none

/-- Match of the upper-bound percentage pattern (opening angle bracket,
whitespace, number, whitespace, percent sign) at the head of the list. -/
def ltPercentAt (l : List Char) : Option ℚ :=
  match l with
  | '<' :: r => percentAt (r.dropWhile Char.isWhitespace)
  | _ => none

/-- parsePercent of the source: prefer the upper-bound form, else the
plain form, both searched leftmost. -/
def parsePercent (l : List Char) : Option ℚ :=
  match scanLeft ltPercentAt l with
  | some v => some v
  | none => scanLeft percentAt l

/-- Global removal of every percentage token (the JS global replace with
the empty string); fuel is the list length. -/
def removePercentGo : ℕ → List Char → List Char
  | 0, l => l
  | _ + 1, [] => []
  | n + 1, c :: rest =>
    match (parseNumAt (c :: rest)).bind fun vr =>
        (match vr.2.dropWhile Char.isWhitespace with
         | '%' :: after => some after
         | _ => none) with
    | some after => removePercentGo n after
    | none => c :: removePercentGo n rest

/-- Remove every percentage token from a fragment. -/
def removePercentTokens (l : List Char) : List Char := removePercentGo l.length l

/-- The fixed multilingual keyword set of the source. -/
def ingredientKeywords : List String :=
  ["ingredients", "composition", "összetevők", "zutaten",
   "ingrédients", "ingredientes", "složení", "zloženie"]

/-- Case-insensitive prefix test (JS i flag; lowered comparison). -/
def ciStartsWith : List Char → List Char → Bool
  | [], _ => true
  | _ :: _, [] => false
  | p :: ps, c :: cs => (p == jsLowerChar c) && ciStartsWith ps cs

/-- Match, at the head of the list, of the keyword pattern the source
builds by template string.  Because a backslash-s escape inside a JS
template literal denotes a plain letter s, the built pattern is
keyword, a run of letters s, a colon or hyphen, a run of letters s, and
a capture of one or more non-dot characters, case-insensitively.
Returns the capture. -/
def kwPatternAt (kw : List Char) (l : List Char) : Option (List Char) :=
  if ciStartsWith kw l then
    match (l.drop kw.length).dropWhile (fun c => jsLowerChar c = 's') with
    | c :: r2 =>
      if c = ':' ∨ c = '-' then
        let cap := (r2.dropWhile fun c => jsLowerChar c = 's').takeWhile (· ≠ '.')
        if cap.isEmpty then none else some cap
      else none
    | [] => none
  else none

/-- A parsed ingredient entry: { name, percent? }. -/
structure ExtractedIng where
  name : String
  percent : Option ℚ
deriving DecidableEq

/-- extractIngredientsFromText of food-service.ts. -/
def extractIngredientsFromText (text : String) : List ExtractedIng :=
  if text = "" then []
  else
    let lower := (jsLower text).toList
    match ingredientKeywords.find? fun k => containsSub lower k.toList with
    | none => []
    | some kw =>
      let kwChars := kw.toList
      let idx := lastIndexOfSub lower kwChars
      let slice := (text.toList.drop idx).take 2000
      let line := collapseWs slice
      let raw :=
        match scanLeft (kwPatternAt kwChars) line with
        | some cap => cap
        | none => line.drop kwChars.length
      let cleaned := trimWs (collapseWs (stripTags raw))
      ((((splitOnSeps cleaned).map trimWs).filter fun f => !f.isEmpty).map
          fun f => trimWs (stripBullets f)).map
        (fun f => { name := String.mk (trimWs (removePercentTokens f))
                    percent := parsePercent f } : List Char → ExtractedIng)
        |>.filter fun i => 1 < i.name.length

/- ===== QuantityReconciler: inferTotalGrams ===== -/

/-- The id-bearing reference of the suggestion parameters. -/
structure RefId where
  id : String
  registry : String
deriving DecidableEq

/-- Word boundary after a unit token (JS b assertion with ASCII word
characters): holds at end of input or before a non-word character. -/
def boundaryAfter : List Char → Bool
  | [] => true
  | c :: _ => !(isWordChar c)

/-- Does one of the unit alternatives occur here, followed by a word
boundary?  Alternation order only selects among succeeding branches and
the capture is the number, so existence suffices. -/
def unitAfter (alts : List String) (l : List Char) : Bool :=
  alts.any fun a =>
    listStartsWith a.toList l && boundaryAfter (l.drop a.toList.length)

/-- Match of number, optional whitespace, unit alternative, boundary at
the head of the list, returning the number. -/
def numUnitAt (alts : List String) (l : List Char) : Option ℚ :=
  (parseNumAt l).bind fun vr =>
    if unitAfter alts (vr.2.dropWhile Char.isWhitespace) then some vr.1 else none

/-- Leftmost match of a number-with-unit pattern. -/
def scanUnit (alts : List String) (l : List Char) : Option ℚ :=
  scanLeft (numUnitAt alts) l

/-- The literal 1-liter phrases of the fallback line. -/
def phrase1l (l : List Char) : Bool :=
  containsSub l "1l".toList || containsSub l "1 liter".toList ||
    containsSub l "1 litre".toList

/-- The joined source string: [query, contextText, ...ids].join of a
single space. -/
def joinedSources (query ctx : String) (ids : List RefId) : String :=
  String.intercalate " " ([query, ctx] ++ ids.map (·.id))

/-- The regex cascade of inferTotalGrams over the lowered joined
sources: liters, then milliliters, then kilograms, then grams, then the
1-liter phrase fallback, else null. -/
def inferScan (s : String) : Option ℚ :=
  let lower := (jsLower s).toList
  match scanUnit ["l", "liter", "litre"] lower with
  | some v => some ((jsRound (v * 1000) : ℤ) : ℚ)
  | none =>
    match scanUnit ["ml"] lower with
    | some v => some ((jsRound v : ℤ) : ℚ)
    | none =>
      match scanUnit ["kg"] lower with
      | some v => some ((jsRound (v * 1000) : ℤ) : ℚ)
      | none =>
        match scanUnit ["g"] lower with
        | some v => some ((jsRound v : ℤ) : ℚ)
        | none => if phrase1l lower then some 1000 else none

/-- inferTotalGrams of food-service.ts. -/
def inferTotalGrams (query ctx : String) (ids : List RefId)
    (explicitQuantity : Option ℚ) : Option ℚ :=
  match explicitQuantity with
  | some q => if 0 < q then some q else inferScan (joinedSources query ctx ids)
  | none => inferScan (joinedSources query ctx ids)

/- ===== Orchestrator: suggestFood =====

The network-facing parts (page scraping, the two catalog lookups, the
language-model providers) are I/O and enter the model as oracle inputs:
the aggregated scraped context text, whether a provider key is
configured, and the parsed model output (none when every provider failed
or was unparseable).  The model records which catalog or provider calls
the control flow performs; scraping happens before the query guard but is
neither a catalog nor a provider call and is not tracked.  Nested input
instances are modelled one level deep (payload Unit); the recursive
process-type normalization is a no-op below the top level for such trees
in the source as well. -/

/-- The request parameters of suggestFood. -/
structure SuggestParams where
  title : Option String
  brand : Option String
  category : Option String
  type : Option String
  ids : List RefId
  query : Option String
  quantity : Option ℚ

/-- The modelled fields of the (parsed) language-model result and of the
heuristic fallback template. -/
structure AIOut where
  type : String
  description : String
  quantity : ℚ
  hasProcess : Bool
  processType : String
  inputInstances : List (InputInst Unit)
deriving DecidableEq

/-- The externally observable calls the pipeline can make after the
query guard. -/
inductive FoodEffect where
  | catalogOFF (query : String)
  | catalogFDC (query : String)
  | llmCall (query : String)
deriving DecidableEq

/-- The oracle inputs standing for I/O results. -/
structure FoodOracles where
  contextText : String
  hasProviderKey : Bool
  aiOut : Option AIOut
  validTypes : List String

/-- The outcome: the early empty result or a reconciled item. -/
inductive SuggestOutcome where
  | emptySuggestions
  | item (r : AIOut)
deriving DecidableEq

/-- Truthiness of the inferred total (null and 0 are falsy). -/
def qTruthy : Option ℚ → Bool
  | none => false
  | some t => decide (t ≠ 0)

/-- The extracted-ingredients branch of suggestFood (the block replacing
an absent or all-zero model ingredient list): build inputs from the
extracted list, convert percentages when a total is known, distribute the
unallocated remainder evenly over percent-less entries, and add any
remaining shortfall to a water-like child. -/
def applyExtracted (ai : AIOut) (extracted : List ExtractedIng)
    (totalGrams : Option ℚ) : AIOut :=
  let ai0 := if ai.hasProcess then ai
    else { ai with hasProcess := true, processType := "blending", inputInstances := [] }
  let withP := extracted.filter (·.percent.isSome)
  let withoutP := extracted.filter (·.percent.isNone)
  let knownPercentTotal := (withP.map fun i => i.percent.getD 0).sum
  let inputs1 : List (InputInst Unit) := extracted.map fun ing =>
    { inst := { type := ing.name, name := "", sub := () }
      quantity :=
        match ing.percent, totalGrams with
        | some pc, some t => if t = 0 then 0 else ((jsRound (t * pc / 100) : ℤ) : ℚ)
        | _, _ => 0 }
  let inputs2 :=
    if qTruthy totalGrams && !withoutP.isEmpty && decide (knownPercentTotal < 100) then
      let used := (inputs1.map (·.quantity)).sum
      let avail := (totalGrams.getD 0) - used
      let per : ℚ := ((jsFloor (avail / (withoutP.length : ℚ)) : ℤ) : ℚ)
      inputs1.map fun i => if i.quantity = 0 then { i with quantity := per } else i
    else inputs1
  let inputs3 :=
    if qTruthy totalGrams && decide (0 < knownPercentTotal) &&
        decide (knownPercentTotal < 100) && !withP.isEmpty then
      let remainder := max 0 ((totalGrams.getD 0) - (inputs2.map (·.quantity)).sum)
      if 0 < remainder && (inputs2.any fun i => isWater i) then
        addToFirstWater inputs2 remainder
      else inputs2
    else inputs2
  let desc :=
    if ai0.description = "" then
      "Ingredients extracted from source: " ++
        String.intercalate ", " (extracted.map (·.name))
    else ai0.description
  { ai0 with inputInstances := inputs3, description := desc }

/-- The liquid-filler backfill at the end of suggestFood: when a total is
known and undershot and the item text looks liquid-like, add the
remainder to a water-like child or append a synthetic Water child. -/
def finalBackfill (ai : AIOut) (totalGrams : Option ℚ) (query : String) : AIOut :=
  if qTruthy totalGrams && ai.hasProcess then
    let t := totalGrams.getD 0
    let sum := (ai.inputInstances.map (·.quantity)).sum
    let remaining := max 0 (t - sum)
    let text := jsLower (ai.type ++ " " ++ ai.description ++ " " ++ query)
    let waterLikely := ["water", "liquid", "drink", "beverage", "soup", "broth",
        "juice", "cleaner", "detergent", "vinegar", "spray"].any
      fun k => containsSub text.toList k.toList
    if 0 < remaining && waterLikely then
      if ai.inputInstances.any fun i => isWater i then
        { ai with inputInstances := addToFirstWater ai.inputInstances remaining }
      else
        { ai with inputInstances := ai.inputInstances ++
            [{ inst := { type := "Water", name := "", sub := () }, quantity := remaining }] }
    else ai
  else ai

/-- suggestFood of food-service.ts over the oracle inputs: query-signal
guard, total inference, fallback template, extracted-ingredient
preference, quantity reconciliation, liquid backfill and process-type
normalization, together with the list of performed catalog/provider
calls. -/
def suggestFood (p : SuggestParams) (o : FoodOracles) :
    List FoodEffect × SuggestOutcome :=
  let query := jsStrOr (p.query.getD "") (jsStrOr (p.title.getD "") (p.type.getD ""))
  if query = "" then ([], SuggestOutcome.emptySuggestions)
  else
    let effects := [FoodEffect.catalogOFF query, FoodEffect.catalogFDC query] ++
      (if o.hasProviderKey then [FoodEffect.llmCall query] else [])
    let extracted := extractIngredientsFromText o.contextText
    let totalGrams := inferTotalGrams query o.contextText p.ids p.quantity
    let ai0 := o.aiOut.getD
      { type := query, description := "", quantity := 0, hasProcess := true
        processType := "blending", inputInstances := [] }
    let ai1 := if qTruthy totalGrams && decide (ai0.quantity = 0) then
        { ai0 with quantity := totalGrams.getD 0 }
      else ai0
    let allInputsZero := ai1.hasProcess && !ai1.inputInstances.isEmpty &&
      ai1.inputInstances.all fun i => decide (i.quantity = 0)
    let shouldUseExtracted := !extracted.isEmpty &&
      ((!ai1.hasProcess || ai1.inputInstances.isEmpty) || allInputsZero)
    let ai2 := if shouldUseExtracted then applyExtracted ai1 extracted totalGrams else ai1
    let ai3 := if ai2.hasProcess then
        { ai2 with inputInstances := normalizeInputQuantitiesToGrams ai2.inputInstances totalGrams }
      else ai2
    let ai4 := finalBackfill ai3 totalGrams query
    let rankedTypes := o.validTypes.filter fun t => t ≠ "harvest" && t ≠ "sale"
    let ai5 := if ai4.hasProcess then
        { ai4 with processType := (pickClosestProcessType ai4.processType
            (if rankedTypes.isEmpty then o.validTypes else rankedTypes)) }
      else ai4
    (effects, SuggestOutcome.item ai5)

/-- The (name, quantity) view of the produced input list, for stating
claims about reconciled quantities. -/
def SuggestOutcome.inputsView : SuggestOutcome → List (String × ℚ)
  | SuggestOutcome.emptySuggestions => []
  | SuggestOutcome.item r => r.inputInstances.map fun i => (i.inst.type, i.quantity)

/- ===== Helper lemmas ===== -/

theorem addToFirstWater_zero {α : Type} (l : List (InputInst α)) :
    addToFirstWater l 0 = l := by
  induction l with
  | nil => rfl
  | cons i rest ih =>
    unfold addToFirstWater
    split
    · simp
    · rw [ih]

theorem addToFirstWater_sum {α : Type} (l : List (InputInst α)) (d : ℚ)
    (hw : ∃ i ∈ l, isWater i = true) :
    ((addToFirstWater l d).map (·.quantity)).sum = (l.map (·.quantity)).sum + d := by
  induction l with
  | nil => simp at hw
  | cons i rest ih =>
    unfold addToFirstWater
    split
    · simp; ring
    · rename_i hiw
      obtain ⟨j, hj, hjw⟩ := hw
      rcases List.mem_cons.1 hj with h | h
      · exact absurd (h ▸ hjw) (by simp [hiw])
      · simp only [List.map_cons, List.sum_cons, ih ⟨j, h, hjw⟩]; ring

theorem addToFirstWater_map_inst {α : Type} (l : List (InputInst α)) (d : ℚ) :
    (addToFirstWater l d).map (·.inst) = l.map (·.inst) := by
  induction l with
  | nil => rfl
  | cons i rest ih =>
    unfold addToFirstWater
    split
    · simp
    · simp [ih]

theorem isWater_convInput {α : Type} (t : ℚ) (i : InputInst α) :
    isWater (convInput t i) = isWater i := rfl

theorem normalize_eq_self_of_not_looks {α : Type} (inputs : List (InputInst α))
    (tg : Option ℚ) (h : looksLikePercent (inputs.map (·.quantity)) = false) :
    normalizeInputQuantitiesToGrams inputs tg = inputs := by
  cases tg with
  | none => rfl
  | some t =>
    show (if t = 0 then inputs
      else if inputs.isEmpty then inputs
      else if looksLikePercent (inputs.map (·.quantity)) then percentConvert t inputs
      else inputs) = inputs
    split_ifs with h1 h2 h3
    · rfl
    · rfl
    · rw [h] at h3; exact absurd h3 (by simp)
    · rfl

theorem pick_nil (x : String) : pickClosestProcessType x [] = "blending" := by
  simp [pickClosestProcessType, rankProcessTypes, List.insertionSort, jsStrOr]

theorem pick_of_mem (y : String) (v : List String) (h : y ∈ v) :
    pickClosestProcessType y v = y := by
  unfold pickClosestProcessType
  rw [if_pos h]

theorem pick_mem (x : String) (v : List String) (hne : v ≠ [])
    (hall : ∀ t ∈ v, t ≠ "") : pickClosestProcessType x v ∈ v := by
  by_cases hx : x ∈ v
  · rw [pickClosestProcessType, if_pos hx]; exact hx
  · have hr : rankProcessTypes x v =
        List.insertionSort (fun a b => b.2 ≤ a.2)
          (v.map fun t => (t,
            tokenScore
              (dedupFirst (((splitOnChar ' ' (normalizeLabel x).toList).map String.mk).filter (· ≠ "")))
              (tokenSet t) + boostFor (normalizeLabel x) t)) := rfl
    rw [pickClosestProcessType, if_neg hx]
    cases hc : rankProcessTypes x v with
    | nil =>
      exfalso
      have hlen := (List.perm_insertionSort (fun a b : String × ℚ => b.2 ≤ a.2)
        (v.map fun t => (t,
          tokenScore
            (dedupFirst (((splitOnChar ' ' (normalizeLabel x).toList).map String.mk).filter (· ≠ "")))
            (tokenSet t) + boostFor (normalizeLabel x) t))).length_eq
      rw [← hr, hc] at hlen
      simp at hlen
      exact hne (List.eq_nil_of_length_eq_zero hlen.symm)
    | cons top rest =>
      have htop : top ∈ rankProcessTypes x v := by rw [hc]; exact List.mem_cons_self _ _
      rw [hr] at htop
      have htop2 := (List.perm_insertionSort (fun a b : String × ℚ => b.2 ≤ a.2) _).mem_iff.1 htop
      obtain ⟨t, htv, hteq⟩ := List.mem_map.1 htop2
      have ht1 : top.1 ∈ v := by rw [← hteq]; exact htv
      have hne1 : top.1 ≠ "" := hall _ ht1
      simp only [jsStrOr, if_neg hne1]
      exact ht1

/- ===== Claim theorems ===== -/

/-- Claim C1, counterexample.  The claim states detection happens exactly
when the sum is at most 110 and every value lies in [0, 100]; the code
additionally requires a positive sum.  At the all-zero list [0, 0] the
claim-side predicate holds but the code does not treat the quantities as
percentages: with total 100 and a water child present a percentage
treatment would backfill the water child to 100, yet the list is returned
unchanged. -/
theorem C1_detection_counterexample :
    claimLooksLikePercent [0, 0] = true ∧
    looksLikePercent [0, 0] = false ∧
    normalizeInputQuantitiesToGrams
        ([⟨⟨"Water", "", ()⟩, 0⟩, ⟨⟨"Salt", "", ()⟩, 0⟩] : List (InputInst Unit)) (some 100) =
      [⟨⟨"Water", "", ()⟩, 0⟩, ⟨⟨"Salt", "", ()⟩, 0⟩] ∧
    percentConvert 100 ([⟨⟨"Water", "", ()⟩, 0⟩, ⟨⟨"Salt", "", ()⟩, 0⟩] : List (InputInst Unit)) =
      [⟨⟨"Water", "", ()⟩, 100⟩, ⟨⟨"Salt", "", ()⟩, 0⟩] := by
  refine ⟨by decide, by decide, by decide, by decide⟩

/-- Claim C1 as amended: for every positive known total,
normalizeInputQuantitiesToGrams treats the child quantities as
percentages (and applies the percent conversion) exactly when their sum
is positive and at most 110 and every individual value lies in [0, 100];
in particular a list containing a value above 100 is never treated as
percentages and is returned unchanged. -/
theorem C1_detection_amended {α : Type} (inputs : List (InputInst α)) (t : ℚ)
    (ht : 0 < t) :
    ((0 < (inputs.map (·.quantity)).sum ∧ (inputs.map (·.quantity)).sum ≤ 110 ∧
        ∀ q ∈ inputs.map (·.quantity), 0 ≤ q ∧ q ≤ 100) →
      looksLikePercent (inputs.map (·.quantity)) = true ∧
        normalizeInputQuantitiesToGrams inputs (some t) = percentConvert t inputs) ∧
    (¬(0 < (inputs.map (·.quantity)).sum ∧ (inputs.map (·.quantity)).sum ≤ 110 ∧
        ∀ q ∈ inputs.map (·.quantity), 0 ≤ q ∧ q ≤ 100) →
      looksLikePercent (inputs.map (·.quantity)) = false ∧
        normalizeInputQuantitiesToGrams inputs (some t) = inputs) ∧
    ((∃ q ∈ inputs.map (·.quantity), 100 < q) →
      looksLikePercent (inputs.map (·.quantity)) = false ∧
        normalizeInputQuantitiesToGrams inputs (some t) = inputs) := by
  have hiff : looksLikePercent (inputs.map (·.quantity)) = true ↔
      (0 < (inputs.map (·.quantity)).sum ∧ (inputs.map (·.quantity)).sum ≤ 110 ∧
        ∀ q ∈ inputs.map (·.quantity), 0 ≤ q ∧ q ≤ 100) := by
    simp [looksLikePercent, List.all_eq_true, and_assoc]
  refine ⟨?_, ?_, ?_⟩
  · intro h
    have hl : looksLikePercent (inputs.map (·.quantity)) = true := hiff.2 h
    refine ⟨hl, ?_⟩
    have hne : ¬ inputs.isEmpty := by
      intro he
      rw [List.isEmpty_iff.1 he] at h
      simp at h
    show (if t = 0 then inputs
      else if inputs.isEmpty then inputs
      else if looksLikePercent (inputs.map (·.quantity)) then percentConvert t inputs
      else inputs) = percentConvert t inputs
    rw [if_neg ht.ne', if_neg hne, if_pos (by rw [hl])]
  · intro h
    have hl : looksLikePercent (inputs.map (·.quantity)) = false := by
      rw [Bool.eq_false_iff]
      intro hT
      exact h (hiff.1 hT)
    exact ⟨hl, normalize_eq_self_of_not_looks inputs (some t) hl⟩
  · intro h
    obtain ⟨q, hq, hq100⟩ := h
    have hl : looksLikePercent (inputs.map (·.quantity)) = false := by
      rw [Bool.eq_false_iff]
      intro hT
      exact absurd ((hiff.1 hT).2.2 q hq).2 (not_le.2 hq100)
    exact ⟨hl, normalize_eq_self_of_not_looks inputs (some t) hl⟩

/-- Claim C1 witness: amended theorem instantiated at a percentage list
and at a list with a value above 100. -/
theorem C1_detection_witness :
    (looksLikePercent [50, 30] = true ∧
      normalizeInputQuantitiesToGrams
          ([⟨⟨"Water", "", ()⟩, 50⟩, ⟨⟨"Flour", "", ()⟩, 30⟩] : List (InputInst Unit)) (some 100) =
        percentConvert 100 [⟨⟨"Water", "", ()⟩, 50⟩, ⟨⟨"Flour", "", ()⟩, 30⟩]) ∧
    (looksLikePercent [500, 30] = false ∧
      normalizeInputQuantitiesToGrams
          ([⟨⟨"Water", "", ()⟩, 500⟩, ⟨⟨"Flour", "", ()⟩, 30⟩] : List (InputInst Unit)) (some 100) =
        [⟨⟨"Water", "", ()⟩, 500⟩, ⟨⟨"Flour", "", ()⟩, 30⟩]) := by
  constructor
  · have := (C1_detection_amended
      ([⟨⟨"Water", "", ()⟩, 50⟩, ⟨⟨"Flour", "", ()⟩, 30⟩] : List (InputInst Unit)) 100
      (by norm_num)).1 (by norm_num)
    simpa using this
  · have := (C1_detection_amended
      ([⟨⟨"Water", "", ()⟩, 500⟩, ⟨⟨"Flour", "", ()⟩, 30⟩] : List (InputInst Unit)) 100
      (by norm_num)).2.2 ⟨500, by norm_num, by norm_num⟩
    simpa using this

/-- Claim C2, counterexample.  With total 3 and percentages [50, 50]
(sum 100, water child present) each rounded conversion is
round(3 times 50 / 100) = round(1.5) = 2, so the converted sum is 4,
which overshoots the total; no backfill happens and the resulting sum is
4, not the total 3.  The claimed identity "sum of resulting quantities
equals T" therefore fails as stated. -/
theorem C2_conversion_counterexample :
    looksLikePercent [50, 50] = true ∧
    ((50 : ℚ) + 50 ≤ 100) ∧
    isWater (⟨⟨"Water", "", ()⟩, 50⟩ : InputInst Unit) = true ∧
    ((normalizeInputQuantitiesToGrams
        ([⟨⟨"Water", "", ()⟩, 50⟩, ⟨⟨"Flour", "", ()⟩, 50⟩] : List (InputInst Unit))
        (some 3)).map (·.quantity)).sum = 4 ∧
    ((4 : ℚ) ≠ 3) := by
  refine ⟨by decide, by norm_num, by decide, by decide, by norm_num⟩

/-- Claim C2 as amended: for a positive known total T, child quantities
detected as percentages with sum at most 100 and a water-like child
present, normalizeInputQuantitiesToGrams sets each child quantity to
round(T times percent / 100) and adds the shortfall to the first
water-like child, and the resulting quantities sum to exactly T —
provided the rounded conversion does not overshoot T (without that
proviso the sum is the rounded sum itself, as the counterexample
shows). -/
theorem C2_conversion_amended {α : Type} (inputs : List (InputInst α)) (t : ℚ)
    (ht : 0 < t)
    (hlooks : looksLikePercent (inputs.map (·.quantity)) = true)
    (_hP : (inputs.map (·.quantity)).sum ≤ 100)
    (hw : ∃ i ∈ inputs, isWater i = true)
    (hno : ((inputs.map (convInput t)).map (·.quantity)).sum ≤ t) :
    normalizeInputQuantitiesToGrams inputs (some t) =
      addToFirstWater (inputs.map (convInput t))
        (t - ((inputs.map (convInput t)).map (·.quantity)).sum) ∧
    ((normalizeInputQuantitiesToGrams inputs (some t)).map (·.quantity)).sum = t := by
  have hne : ¬ inputs.isEmpty := by
    intro he
    rw [List.isEmpty_iff.1 he] at hlooks
    simp [looksLikePercent] at hlooks
  have hnorm : normalizeInputQuantitiesToGrams inputs (some t) = percentConvert t inputs := by
    show (if t = 0 then inputs
      else if inputs.isEmpty then inputs
      else if looksLikePercent (inputs.map (·.quantity)) then percentConvert t inputs
      else inputs) = percentConvert t inputs
    rw [if_neg ht.ne', if_neg hne, if_pos (by rw [hlooks])]
  have hwconv : ∃ j ∈ inputs.map (convInput t), isWater j = true := by
    obtain ⟨i, hi, hiw⟩ := hw
    exact ⟨convInput t i, List.mem_map_of_mem _ hi, by rw [isWater_convInput]; exact hiw⟩
  have hconv : percentConvert t inputs =
      addToFirstWater (inputs.map (convInput t))
        (t - ((inputs.map (convInput t)).map (·.quantity)).sum) := by
    show (if ((inputs.map (convInput t)).map (·.quantity)).sum < t then
        addToFirstWater (inputs.map (convInput t))
          (t - ((inputs.map (convInput t)).map (·.quantity)).sum)
      else inputs.map (convInput t)) = _
    split_ifs with hlt
    · rfl
    · have heq : ((inputs.map (convInput t)).map (·.quantity)).sum = t :=
        le_antisymm hno (not_lt.1 hlt)
      rw [heq, sub_self, addToFirstWater_zero]
  refine ⟨hnorm.trans hconv, ?_⟩
  rw [hnorm, hconv, addToFirstWater_sum _ _ hwconv]
  ring

/-- Claim C2 witness: total 100, percentages [50, 30] with a water child;
the conversion gives [50, 30], the shortfall 20 goes to the water child
and the resulting quantities sum to 100. -/
theorem C2_conversion_witness :
    normalizeInputQuantitiesToGrams
        ([⟨⟨"Water", "", ()⟩, 50⟩, ⟨⟨"Flour", "", ()⟩, 30⟩] : List (InputInst Unit))
        (some 100) =
      addToFirstWater
        (([⟨⟨"Water", "", ()⟩, 50⟩, ⟨⟨"Flour", "", ()⟩, 30⟩] : List (InputInst Unit)).map
          (convInput 100))
        (100 - ((([⟨⟨"Water", "", ()⟩, 50⟩, ⟨⟨"Flour", "", ()⟩, 30⟩] : List (InputInst Unit)).map
          (convInput 100)).map (·.quantity)).sum) ∧
    ((normalizeInputQuantitiesToGrams
        ([⟨⟨"Water", "", ()⟩, 50⟩, ⟨⟨"Flour", "", ()⟩, 30⟩] : List (InputInst Unit))
        (some 100)).map (·.quantity)).sum = 100 :=
  C2_conversion_amended _ 100 (by norm_num) (by decide) (by decide)
    ⟨⟨⟨"Water", "", ()⟩, 50⟩, by decide, by decide⟩ (by decide)

/-- Claim C4: for every known total, a child list whose quantities do not
look like percentages (zero sum, sum above 110, or a value outside
[0, 100]) is returned unchanged by normalizeInputQuantitiesToGrams, so
re-running reconciliation on an already-reconciled list is a no-op. -/
theorem C4_renormalize_noop {α : Type} (inputs : List (InputInst α)) (t : ℚ)
    (h : (inputs.map (·.quantity)).sum = 0 ∨ 110 < (inputs.map (·.quantity)).sum ∨
      ∃ q ∈ inputs.map (·.quantity), q < 0 ∨ 100 < q) :
    normalizeInputQuantitiesToGrams inputs (some t) = inputs := by
  apply normalize_eq_self_of_not_looks
  rw [Bool.eq_false_iff]
  intro hT
  simp only [looksLikePercent, Bool.and_eq_true, decide_eq_true_eq, List.all_eq_true] at hT
  obtain ⟨⟨h1, h2⟩, h3⟩ := hT
  rcases h with h0 | h110 | ⟨q, hq, hout⟩
  · rw [h0] at h1; exact absurd h1 (by norm_num)
  · exact absurd h2 (not_le.2 h110)
  · obtain ⟨hq0, hq100⟩ := h3 q hq
    rcases hout with hlt | hgt
    · exact absurd hq0 (not_le.2 hlt)
    · exact absurd hq100 (not_le.2 hgt)

/-- Claim C4 witness: an already-converted gram list (sum 1000, above the
110 threshold) is returned unchanged. -/
theorem C4_renormalize_noop_witness :
    normalizeInputQuantitiesToGrams
        ([⟨⟨"Flour", "", ()⟩, 500⟩, ⟨⟨"Water", "", ()⟩, 300⟩, ⟨⟨"Salt", "", ()⟩, 200⟩] :
          List (InputInst Unit)) (some 1000) =
      [⟨⟨"Flour", "", ()⟩, 500⟩, ⟨⟨"Water", "", ()⟩, 300⟩, ⟨⟨"Salt", "", ()⟩, 200⟩] :=
  C4_renormalize_noop _ 1000 (Or.inr (Or.inl (by norm_num)))

/-- Claim C10: normalizeInputQuantitiesToGrams preserves the length and
order of the input list and leaves every nested instance (name fields and
the whole payload subtree, here an arbitrary type) unchanged; only the
quantity fields may change. -/
theorem C10_frame {α : Type} (inputs : List (InputInst α)) (tg : Option ℚ) :
    (normalizeInputQuantitiesToGrams inputs tg).map (·.inst) = inputs.map (·.inst) ∧
    (normalizeInputQuantitiesToGrams inputs tg).length = inputs.length := by
  have hmap : (normalizeInputQuantitiesToGrams inputs tg).map (·.inst) = inputs.map (·.inst) := by
    cases tg with
    | none => rfl
    | some t =>
      show ((if t = 0 then inputs
        else if inputs.isEmpty then inputs
        else if looksLikePercent (inputs.map (·.quantity)) then percentConvert t inputs
        else inputs)).map (·.inst) = inputs.map (·.inst)
      split_ifs with h1 h2 h3
      · rfl
      · rfl
      · show (percentConvert t inputs).map (·.inst) = inputs.map (·.inst)
        rw [percentConvert]
        split_ifs with hlt
        · rw [addToFirstWater_map_inst, List.map_map]
          rfl
        · rw [List.map_map]
          rfl
      · rfl
  refine ⟨hmap, ?_⟩
  have := congrArg List.length hmap
  simpa using this

/-- Claim C3: with a known total of 1000 and extracted ingredients
Flour 50 percent, Water 30 percent and Salt without a percentage, the
suggestFood pipeline (language model unavailable, so the extracted list
is used) reconciles the input quantities to Flour = 500, Water = 300 and
Salt = 200: each percent-bearing ingredient receives
round(total times percent / 100) and the remaining unallocated mass is
divided evenly across the percent-less ingredients. -/
theorem C3_extracted_reconciliation :
    ((suggestFood
        { title := none, brand := none, category := none, type := none,
          ids := [], query := some "mixture", quantity := some 1000 }
        { contextText := "Ingredients: Flour 50%, Water 30%, Salt",
          hasProviderKey := false, aiOut := none,
          validTypes := ["printing", "milling", "freezedrying", "blending", "harvest",
            "sale"] }).2).inputsView =
      [("Flour", 500), ("Water", 300), ("Salt", 200)] ∧
    extractIngredientsFromText "Ingredients: Flour 50%, Water 30%, Salt" =
      [⟨"Flour", some 50⟩, ⟨"Water", some 30⟩, ⟨"Salt", none⟩] ∧
    inferTotalGrams "mixture" "Ingredients: Flour 50%, Water 30%, Salt" [] (some 1000) =
      some 1000 := by
  refine ⟨by decide, by decide, by decide⟩

/-- Claim C5: inferTotalGrams returns the explicitly supplied quantity
whenever it is positive, ignoring all text; otherwise it scans the
lowered join of the query text, the scraped context and the identifier
strings (in that order) for unit tokens in the priority order
liters (times 1000), milliliters, kilograms (times 1000), grams, each
taken at its leftmost occurrence; if no unit matches but a 1-liter
phrase occurs it returns 1000; and if nothing matches at all it returns
none, never inventing a magnitude. -/
theorem C5_inferTotalGrams_priority :
    (∀ q ctx ids (e : ℚ), 0 < e → inferTotalGrams q ctx ids (some e) = some e) ∧
    (∀ q ctx ids, inferTotalGrams q ctx ids none = inferScan (joinedSources q ctx ids)) ∧
    (∀ q ctx ids (e : ℚ), ¬ 0 < e →
      inferTotalGrams q ctx ids (some e) = inferScan (joinedSources q ctx ids)) ∧
    (∀ s (v : ℚ), scanUnit ["l", "liter", "litre"] ((jsLower s).toList) = some v →
      inferScan s = some ((jsRound (v * 1000) : ℤ) : ℚ)) ∧
    (∀ s (v : ℚ), scanUnit ["l", "liter", "litre"] ((jsLower s).toList) = none →
      scanUnit ["ml"] ((jsLower s).toList) = some v →
      inferScan s = some ((jsRound v : ℤ) : ℚ)) ∧
    (∀ s (v : ℚ), scanUnit ["l", "liter", "litre"] ((jsLower s).toList) = none →
      scanUnit ["ml"] ((jsLower s).toList) = none →
      scanUnit ["kg"] ((jsLower s).toList) = some v →
      inferScan s = some ((jsRound (v * 1000) : ℤ) : ℚ)) ∧
    (∀ s (v : ℚ), scanUnit ["l", "liter", "litre"] ((jsLower s).toList) = none →
      scanUnit ["ml"] ((jsLower s).toList) = none →
      scanUnit ["kg"] ((jsLower s).toList) = none →
      scanUnit ["g"] ((jsLower s).toList) = some v →
      inferScan s = some ((jsRound v : ℤ) : ℚ)) ∧
    (∀ s, scanUnit ["l", "liter", "litre"] ((jsLower s).toList) = none →
      scanUnit ["ml"] ((jsLower s).toList) = none →
      scanUnit ["kg"] ((jsLower s).toList) = none →
      scanUnit ["g"] ((jsLower s).toList) = none →
      phrase1l ((jsLower s).toList) = true → inferScan s = some 1000) ∧
    (∀ s, scanUnit ["l", "liter", "litre"] ((jsLower s).toList) = none →
      scanUnit ["ml"] ((jsLower s).toList) = none →
      scanUnit ["kg"] ((jsLower s).toList) = none →
      scanUnit ["g"] ((jsLower s).toList) = none →
      phrase1l ((jsLower s).toList) = false → inferScan s = none) := by
  refine ⟨?_, ?_, ?_, ?_, ?_, ?_, ?_, ?_, ?_⟩
  · intro q ctx ids e he
    simp [inferTotalGrams, if_pos he]
  · intro q ctx ids
    rfl
  · intro q ctx ids e he
    simp [inferTotalGrams, if_neg he]
  · intro s v h
    simp only [inferScan]
    rw [h]
  · intro s v h1 h2
    simp only [inferScan]
    rw [h1, h2]
  · intro s v h1 h2 h3
    simp only [inferScan]
    rw [h1, h2, h3]
  · intro s v h1 h2 h3 h4
    simp only [inferScan]
    rw [h1, h2, h3, h4]
  · intro s h1 h2 h3 h4 h5
    simp only [inferScan]
    rw [h1, h2, h3, h4, h5]
    rfl
  · intro s h1 h2 h3 h4 h5
    simp only [inferScan]
    rw [h1, h2, h3, h4, h5]
    rfl

/-- Claim C5 witness: an explicit positive quantity wins over text, a
milliliter token present only in the context is found after the liter
scan fails, and text with no unit token yields none. -/
theorem C5_inferTotalGrams_witness :
    inferTotalGrams "x" "" [] (some 250) = some 250 ∧
    inferTotalGrams "" "juice 250 ml bottle" [] none = some 250 ∧
    inferTotalGrams "plain bread" "" [] none = none := by
  refine ⟨C5_inferTotalGrams_priority.1 "x" "" [] 250 (by norm_num), ?_, ?_⟩
  · rw [C5_inferTotalGrams_priority.2.1 "" "juice 250 ml bottle" []]
    rw [C5_inferTotalGrams_priority.2.2.2.2.1 (joinedSources "" "juice 250 ml bottle" []) 250
      (by decide) (by decide)]
    decide
  · rw [C5_inferTotalGrams_priority.2.1 "plain bread" "" []]
    exact C5_inferTotalGrams_priority.2.2.2.2.2.2.2.2 (joinedSources "plain bread" "" [])
      (by decide) (by decide) (by decide) (by decide) (by decide)

/-- Claim C6, counterexample.  For the valid-type list containing the
empty string and the two-token type "blending x", classifying the label
"zq" falls through the falsy top candidate to the hardcoded default
"blending", but classifying "blending" again selects "blending x", so
double classification differs from single classification. -/
theorem C6_idempotent_counterexample :
    pickClosestProcessType "zq" ["", "blending x"] = "blending" ∧
    pickClosestProcessType (pickClosestProcessType "zq" ["", "blending x"])
        ["", "blending x"] = "blending x" ∧
    pickClosestProcessType (pickClosestProcessType "zq" ["", "blending x"])
        ["", "blending x"] ≠ pickClosestProcessType "zq" ["", "blending x"] := by
  refine ⟨by decide, by decide, by decide⟩

/-- Claim C6 as amended: process-type classification is idempotent for
every label and every list of valid types whose members are non-empty
strings (the lists actually read from the type registry). -/
theorem C6_idempotent_amended (x : String) (v : List String)
    (hall : ∀ t ∈ v, t ≠ "") :
    pickClosestProcessType (pickClosestProcessType x v) v =
      pickClosestProcessType x v := by
  by_cases hv : v = []
  · subst hv
    rw [pick_nil, pick_nil]
  · exact pick_of_mem _ _ (pick_mem x v hv hall)

/-- Claim C6 witness: idempotence at a concrete label and type list. -/
theorem C6_idempotent_witness :
    pickClosestProcessType (pickClosestProcessType "mixed drink" ["milling", "blending"])
        ["milling", "blending"] =
      pickClosestProcessType "mixed drink" ["milling", "blending"] :=
  C6_idempotent_amended "mixed drink" ["milling", "blending"] (by decide)

/-- Claim C7, counterexample.  For the non-empty valid list containing
only the empty string, the classifier returns the hardcoded default
"blending", which is not a member of the list, contradicting the claimed
membership for every non-empty list. -/
theorem C7_membership_counterexample :
    ([""] ≠ ([] : List String)) ∧
    pickClosestProcessType "x" [""] = "blending" ∧
    pickClosestProcessType "x" [""] ∉ ([""] : List String) := by
  refine ⟨by decide, by decide, by decide⟩

/-- Claim C7 as amended: pickClosestProcessType is a total function (the
embedding is a Lean function, so it never throws) and, for every raw
label and every non-empty list of valid types whose members are
non-empty strings, it returns a member of that list; for an empty
candidate list it returns the hardcoded default "blending". -/
theorem C7_membership_amended :
    (∀ (x : String) (v : List String), v ≠ [] → (∀ t ∈ v, t ≠ "") →
      pickClosestProcessType x v ∈ v) ∧
    (∀ x : String, pickClosestProcessType x [] = "blending") :=
  ⟨fun x v hne hall => pick_mem x v hne hall, fun x => pick_nil x⟩

/-- Claim C7 witness: membership at a concrete label and list, and the
default for the empty list. -/
theorem C7_membership_witness :
    pickClosestProcessType "foo" ["milling"] ∈ ["milling"] ∧
    pickClosestProcessType "foo" [] = "blending" :=
  ⟨C7_membership_amended.1 "foo" ["milling"] (by decide) (by decide),
   C7_membership_amended.2 "foo"⟩

/-- Claim C8: extractIngredientsFromText preserves source order and
parses names and percentages — on the text
"Ingredients: Flour 50%, Water 30%, Salt" it returns exactly Flour 50,
Water 30 and Salt without percentage, in that order — and for any text
whose lowering contains none of the fixed multilingual ingredient
keywords it returns the empty list. -/
theorem C8_extract_order_and_guard :
    extractIngredientsFromText "Ingredients: Flour 50%, Water 30%, Salt" =
      [⟨"Flour", some 50⟩, ⟨"Water", some 30⟩, ⟨"Salt", none⟩] ∧
    ∀ text : String, (∀ k ∈ ingredientKeywords,
        containsSub ((jsLower text).toList) k.toList = false) →
      extractIngredientsFromText text = [] := by
  constructor
  · decide
  · intro text h
    unfold extractIngredientsFromText
    split_ifs with h0
    · rfl
    · have hfind : ingredientKeywords.find?
          (fun k => containsSub ((jsLower text).toList) k.toList) = none :=
        List.find?_eq_none.2 fun k hk => by rw [h k hk]; exact Bool.false_ne_true
      simp only [hfind]

/-- Claim C8 witness: a text with no ingredient keyword extracts to the
empty list. -/
theorem C8_extract_witness : extractIngredientsFromText "hello world" = [] :=
  C8_extract_order_and_guard.2 "hello world" (by decide)

/-- Claim C9: when the query, title and type parameters are all absent
or empty, suggestFood returns the explicit empty result and performs no
catalog lookup and no language-model call (the effect list is empty;
the embedding is a total function, so no exception is possible). -/
theorem C9_empty_query (p : SuggestParams) (o : FoodOracles)
    (hq : p.query = none ∨ p.query = some "")
    (ht : p.title = none ∨ p.title = some "")
    (hty : p.type = none ∨ p.type = some "") :
    suggestFood p o = ([], SuggestOutcome.emptySuggestions) := by
  have h1 : p.query.getD "" = "" := by rcases hq with h | h <;> simp [h]
  have h2 : p.title.getD "" = "" := by rcases ht with h | h <;> simp [h]
  have h3 : p.type.getD "" = "" := by rcases hty with h | h <;> simp [h]
  unfold suggestFood
  rw [h1, h2, h3]
  simp [jsStrOr]

/-- Claim C9 witness: the empty-parameter request returns the empty
result with no effects even when a provider key is configured. -/
theorem C9_empty_query_witness :
    suggestFood
        { title := none, brand := none, category := none, type := none,
          ids := [], query := none, quantity := none }
        { contextText := "", hasProviderKey := true, aiOut := none, validTypes := [] } =
      ([], SuggestOutcome.emptySuggestions) :=
  C9_empty_query _ _ (Or.inl rfl) (Or.inl rfl) (Or.inl rfl)

end TMFood
